import Mathlib

/-!
Verification of the obsidian-audio-note repository.

The development shallowly embeds the Python sources:
* `src/src/file_utils.py`  — `find_audio_files` (Audio Discovery),
* `src/process_voice_memos.py` — the orchestrator `main`,
* `src/src/audio_converter.py` — `convert_to_mp3`,
* `src/src/transcriber.py` — `transcribe_mp3`,
and, where the code is imported but absent from the sources
(`read_timestamp`, `write_timestamp`, `write_string_to_file`), models the
Checkpoint Store from the specification.

The filesystem is modelled explicitly: a directory listing is a list of
entries, each with a name, a regular-file flag, and an optional creation
time (`none` meaning that reading the time raises `OSError`).  Timestamps
are integers; Python floats enter only through order comparisons, which
the integer model preserves.
-/

namespace ObsidianAudioNote

/-- A directory entry as observed by `Path.iterdir` plus the `os.path.getctime`
observations the code makes of it.  `ctime = none` models a file whose
creation time cannot be read (`os.path.getctime` raises `OSError`);
`getctime` itself already falls back to the modification time on platforms
without creation time, so a single optional value is the whole observation. -/
structure Entry where
  name : String
  isFile : Bool
  ctime : Option Int
deriving DecidableEq, Repr

/-- Index of the last dot in a character list, mirroring Python
`str.rfind` applied to a single dot (as used by `pathlib.PurePath.suffix`). -/
def rfindDot : List Char → Option Nat
  | [] => none
  | c :: rest =>
    match rfindDot rest with
    | some i => some (i + 1)
    | none => if c = '.' then some 0 else none

/-- `pathlib.PurePath.suffix` on a file name: the substring from the last
dot onward, provided the dot is neither the first nor the last character;
otherwise the empty string. -/
def pySuffix (name : String) : String :=
  let cs := name.data
  match rfindDot cs with
  | some i => if 0 < i ∧ i + 1 < cs.length then String.mk (cs.drop i) else ""
  | none => ""

/-- Python `str.lower` on one character, for the ASCII range (non-ASCII
characters are lowered neither here nor, relevantly, to anything that
could match the ASCII whitelist extensions). -/
def lowerChar (c : Char) : Char :=
  if 65 ≤ c.toNat ∧ c.toNat ≤ 90 then Char.ofNat (c.toNat + 32) else c

/-- Python `str.lower` on a string (ASCII range). -/
def lowerString (s : String) : String := String.mk (s.data.map lowerChar)

/-- The extension whitelist of `find_audio_files`
(`audio_extensions = {'.m4a', '.qta'}` in `src/src/file_utils.py`). -/
def audio_extensions : List String := [".m4a", ".qta"]

/-- The extension test of the loop body of `find_audio_files`:
the entry is a regular file and `item.suffix.lower()` is in the whitelist. -/
def qualifies (e : Entry) : Bool :=
  e.isFile && audio_extensions.contains (lowerString (pySuffix e.name))

/-- The time filter of the loop body of `find_audio_files`: with a
timestamp, include the file only when its creation time is readable and
strictly greater (`file_ctime > timestamp`); an unreadable time is caught
(`except OSError: continue`).  Without a timestamp every file passes. -/
def passesTimeFilter (timestamp : Option Int) (e : Entry) : Bool :=
  match timestamp with
  | none => true
  | some t =>
    match e.ctime with
    | none => false
    | some c => decide (t < c)

/-- The sort key of `found_files.sort(key=lambda f: os.path.getctime(f), ...)`.
In the model an entry's creation time is stable, so the key of every entry
that reaches the sort is its `ctime`; the default is never used on the
success path because the sort raises on an unreadable time. -/
def ctimeKey (e : Entry) : Int := e.ctime.getD 0

/-- The ordering of the final `sort(..., reverse=True)`: `a` precedes `b`
when `a`'s creation time is at least `b`'s.  Python's sort is stable, and a
stable sort by this total preorder is exactly what `reverse=True` by the
`getctime` key produces. -/
def newerFirst (a b : Entry) : Prop := ctimeKey b ≤ ctimeKey a

instance : DecidableRel newerFirst := fun a b => Int.decLe (ctimeKey b) (ctimeKey a)

instance : IsTotal Entry newerFirst := ⟨fun a b => le_total (ctimeKey b) (ctimeKey a)⟩

instance : IsTrans Entry newerFirst := ⟨fun _ _ _ h1 h2 => le_trans h2 h1⟩

/-- The state of the path handed to `find_audio_files`: absent, present
but not a directory, a directory whose enumeration is denied
(`iterdir` raises `PermissionError`), or a readable directory with its
(non-recursive) list of entries. -/
inductive DirStatus where
  | missing
  | notADir
  | denied
  | readable (items : List Entry)
deriving DecidableEq, Repr

/-- The argument of `find_audio_files`: the path string together with what
the filesystem says about it. -/
structure Directory where
  path : String
  status : DirStatus
deriving DecidableEq, Repr

/-- The exceptions `find_audio_files` can raise: the three validation
errors of its contract, plus the `OSError` that escapes from the final
sort's key function when a collected file's time cannot be read. -/
inductive FindError where
  | fileNotFound (msg : String)
  | notADirectory (msg : String)
  | permissionError (msg : String)
  | osError
deriving DecidableEq, Repr

/-- The privacy pane named by both remediation texts of the
`PermissionError` message in `find_audio_files`. -/
def securityPane : String := "System Settings > Privacy & Security"

/-- The header of the `PermissionError` message in `find_audio_files`. -/
def permissionHeader (directory : String) : String :=
  "Permission denied: Cannot access \x27" ++ directory ++ "\x27\n\n" ++
  "This directory is protected by macOS security policies.\n"

/-- The Voice Memos specific remediation steps of the `PermissionError`
message in `find_audio_files`. -/
def voiceMemosRemediation : String :=
  "\nFor Voice Memos access:\n" ++
  "1. Export voice memos from the Voice Memos app (File > Export)\n" ++
  "2. Or copy files manually to an accessible location\n" ++
  "3. Grant Full Disk Access: " ++ securityPane ++ " > Full Disk Access\n" ++
  "   (Note: This requires adding Python or your terminal app)\n"

/-- The generic remediation steps of the `PermissionError` message in
`find_audio_files`. -/
def genericRemediation : String :=
  "\nTo resolve:\n" ++
  "1. Check directory permissions: ls -la <directory>\n" ++
  "2. Copy files to an accessible location\n" ++
  "3. Grant necessary permissions in " ++ securityPane ++ "\n"

/-- The `PermissionError` message built in `find_audio_files`: the header
naming the directory, then remediation steps; the Voice Memos specific
set when the path mentions `VoiceMemos`, the generic set otherwise. -/
def permissionMessage (directory : String) : String :=
  permissionHeader directory ++
    (if "VoiceMemos".data <:+: directory.data then voiceMemosRemediation
     else genericRemediation)

/-- `find_audio_files(directory, timestamp)` from `src/src/file_utils.py`.
Validation: missing path raises `FileNotFoundError`, a non-directory raises
`NotADirectoryError`, a denied enumeration raises `PermissionError` with
the remediation message.  Then the loop keeps the regular files whose
lowercased suffix is whitelisted and which pass the time filter, and the
result is sorted newest first.  The sort calls `os.path.getctime` on every
collected file; if any collected file's time is unreadable that call
raises `OSError`, which propagates out of `find_audio_files` (this can
only happen when `timestamp` is `None`, since the filter otherwise already
skipped unreadable files). -/
def find_audio_files (d : Directory) (timestamp : Option Int) :
    Except FindError (List Entry) :=
  match d.status with
  | .missing => .error (.fileNotFound ("Directory not found: " ++ d.path))
  | .notADir => .error (.notADirectory ("Path is not a directory: " ++ d.path))
  | .denied => .error (.permissionError (permissionMessage d.path))
  | .readable items =>
    let found := items.filter fun item => qualifies item && passesTimeFilter timestamp item
    if found.all fun e => e.ctime.isSome then
      .ok (List.insertionSort newerFirst found)
    else
      .error .osError

/-! ### Checkpoint Store

`process_voice_memos.py` imports `read_timestamp`, `write_timestamp` and
`write_string_to_file` from `src.file_utils`, but the sources do not
contain them; the Checkpoint Store is therefore modelled from the
specification (section 4.1).  The store state is the optional contents of
the checkpoint file (`none` = file absent). -/

/-- The decimal digit character for a value below ten. -/
def digitChar (d : Nat) : Char := Char.ofNat (48 + d)

/-- The numeric value of a decimal digit character. -/
def digitVal (c : Char) : Nat := c.toNat - 48

/-- Little-endian decimal digits of `n`, by repeated division; the fuel
argument (any bound of `n`) makes the recursion structural. -/
def digitsRevAux : Nat → Nat → List Nat
  | 0, _ => []
  | _, 0 => []
  | fuel+1, n => (n % 10) :: digitsRevAux fuel (n / 10)

/-- Python `str(n)` for a nonnegative integer: its decimal digits, most
significant first ("0" for zero). -/
def natToDecimal (n : Nat) : String :=
  if n = 0 then "0" else String.mk ((digitsRevAux n n).reverse.map digitChar)

/-- Python `int(s)` on a nonempty all-digit string, `none` otherwise. -/
def decimalToNat (s : String) : Option Nat :=
  if s.data ≠ [] ∧ s.data.all Char.isDigit then
    some (Nat.ofDigits 10 ((s.data.map digitVal).reverse))
  else none

/-- Modelled from the spec: `read_timestamp` of the Checkpoint Store is
imported by `process_voice_memos.py` from `src.file_utils` but absent from
the sources.  Spec 4.1: `read` returns the persisted timestamp, or none
when no checkpoint file exists yet (absence is a valid state, not an
error); the stored representation is the decimal string form of an
integer timestamp. -/
def read_timestamp (store : Option String) : Option Nat :=
  store.bind decimalToNat

/-- Modelled from the spec: `write_timestamp` of the Checkpoint Store is
imported by `process_voice_memos.py` from `src.file_utils` but absent from
the sources.  Spec 4.1: `write` persists the given timestamp, replacing
any prior value, as the decimal string form of an integer timestamp.  The
result is the new store state. -/
def write_timestamp (now : Nat) (_store : Option String) : Option String :=
  some (natToDecimal now)

/-! ### Orchestrator (`main` of `src/process_voice_memos.py`)

The Conversion and Transcription Collaborators and the note write
(`write_string_to_file`, also absent from the sources) are oracles passed
as functions; each either succeeds or raises an exception carried as a
message.  The conversion always targets the fixed temporary path
`temp.mp3` and the transcription always reads it, so in a single
sequential run both are determined by the current candidate file, which
is how the oracles are keyed. -/

/-- A fault propagating out of an orchestrator run: the discovery
exception, or an exception raised by a conversion, transcription or
note-write step. -/
inductive RunFault where
  | discovery (e : FindError)
  | step (msg : String)
deriving DecidableEq, Repr

/-- One iteration of the loop body of `main`: convert the candidate to
`temp.mp3`, transcribe `temp.mp3`, write the transcription as a note.
The first exception aborts the iteration; on success the transcription
that was written is returned. -/
def stepNote (conv : Entry → Except String Unit) (tr : Entry → Except String String)
    (wr : String → Except String Unit) (f : Entry) : Except String String := do
  conv f
  let t ← tr f
  wr t
  pure t

/-- The `for audio_file in audio_files` loop of `main`: the notes written,
in order, paired with the first step exception if one occurred (processing
stops there; later candidates are not touched). -/
def processAll (conv : Entry → Except String Unit) (tr : Entry → Except String String)
    (wr : String → Except String Unit) : List Entry → List String × Option String
  | [] => ([], none)
  | f :: fs =>
    match stepNote conv tr wr f with
    | .error e => ([], some e)
    | .ok t =>
      let r := processAll conv tr wr fs
      (t :: r.1, r.2)

/-- The observable outcome of one orchestrator run: the note bodies
written, the checkpoint store state afterwards, and the propagated fault
if the run failed. -/
structure RunResult where
  notes : List String
  store : Option String
  fault : Option RunFault
deriving DecidableEq, Repr

/-- `main()` of `src/process_voice_memos.py`: read the checkpoint,
discover candidates newer than it, process each in order, and finally
write the wall-clock time `now` as the new checkpoint.  Any exception
(from discovery or from a processing step) propagates and the checkpoint
write is never reached. -/
def runMain (conv : Entry → Except String Unit) (tr : Entry → Except String String)
    (wr : String → Except String Unit)
    (d : Directory) (store : Option String) (now : Nat) : RunResult :=
  let timestamp := read_timestamp store
  match find_audio_files d (timestamp.map Int.ofNat) with
  | .error e => ⟨[], store, some (.discovery e)⟩
  | .ok files =>
    let r := processAll conv tr wr files
    match r.2 with
    | some msg => ⟨r.1, store, some (.step msg)⟩
    | none => ⟨r.1, write_timestamp now store, none⟩

/-! ### Conversion Collaborator (`convert_to_mp3` of `src/src/audio_converter.py`) -/

namespace AudioConverter

/-- Index of the last occurrence of a character in a character list
(Python `str.rfind`). -/
def rfindChar (ch : Char) : List Char → Option Nat
  | [] => none
  | c :: rest =>
    match rfindChar ch rest with
    | some i => some (i + 1)
    | none => if c = ch then some 0 else none

/-- `pathlib.PurePath.parent` of a path string as the repository uses it:
everything before the last slash, `/` for a top-level absolute path, and
`.` when there is no slash. -/
def pyParent (p : String) : String :=
  match rfindChar '/' p.data with
  | some 0 => "/"
  | some i => String.mk (p.data.take i)
  | none => "."

/-- What `convert_to_mp3` observes of the world: whether the input file
exists, whether the output path's parent directory exists, and whether
`mkdir`, the pydub load and the MP3 export raise (carrying the message of
the underlying error when they do). -/
structure ConvFS where
  inputExists : Bool
  parentExists : Bool
  mkdirError : Option String
  loadError : Option String
  exportError : Option String
deriving DecidableEq, Repr

/-- The exceptions `convert_to_mp3` can raise. -/
inductive ConvError where
  | fileNotFound (msg : String)
  | valueError (msg : String)
  | exception (msg : String)
deriving DecidableEq, Repr

/-- The side-effecting calls `convert_to_mp3` performs, in order:
`output_dir.mkdir(parents=True, exist_ok=True)` (creating the parent and
every missing intermediate directory), `AudioSegment.from_file(input)`,
and `audio.export(output, format="mp3")` which writes the MP3 at the
output path. -/
inductive ConvAction where
  | mkdirParentsExistOk (dir : String)
  | loadAudio (path : String)
  | exportMp3 (path : String)
deriving DecidableEq, Repr

/-- `convert_to_mp3(input_path, output_path)` from
`src/src/audio_converter.py`.  A missing input raises
`FileNotFoundError`; then, when the output parent does not exist, it is
created with `mkdir(parents=True, exist_ok=True)` (an `OSError` there is
wrapped in a `ValueError`); then the audio is loaded and exported, each
failure wrapped in a generic `Exception`.  (The Python guard
`if output_dir and not output_dir.exists()` reduces to the existence
check because a `Path` is always truthy.)  The result is the list of
completed filesystem effects, in order, together with the raised
exception when one propagates (`none` on success). -/
def convert_to_mp3 (fs : ConvFS) (input output : String) :
    List ConvAction × Option ConvError :=
  if !fs.inputExists then
    ([], some (.fileNotFound ("Input file not found: " ++ input)))
  else
    let mkdirStep : List ConvAction × Option ConvError :=
      if !fs.parentExists then
        match fs.mkdirError with
        | some _ =>
          ([], some (.valueError ("Cannot create output directory: " ++ pyParent output)))
        | none => ([ConvAction.mkdirParentsExistOk (pyParent output)], none)
      else ([], none)
    match mkdirStep.2 with
    | some e => (mkdirStep.1, some e)
    | none =>
      match fs.loadError with
      | some e => (mkdirStep.1, some (.exception ("Failed to load audio file: " ++ e)))
      | none =>
        match fs.exportError with
        | some e =>
          (mkdirStep.1 ++ [ConvAction.loadAudio input],
            some (.exception ("Failed to export as MP3: " ++ e)))
        | none =>
          (mkdirStep.1 ++ [ConvAction.loadAudio input, ConvAction.exportMp3 output], none)

end AudioConverter

/-! ### Transcription Collaborator (`transcribe_mp3` of `src/src/transcriber.py`) -/

namespace Transcriber

/-- The whisper library and the filesystem as oracles, over an opaque
type of model objects: `load_model` returns the model object for a name,
`transcribe` runs a model on a file yielding the `result["text"]` string
or a failure message, and `fileExists` answers `Path.exists`. -/
structure WhisperEnv (μ : Type) where
  load_model : String → μ
  transcribe : μ → String → Except String String
  fileExists : String → Bool

/-- The module-scope initialization of `src/src/transcriber.py`:
`whisper_model = whisper.load_model("large")`, run once at import. -/
def whisper_model {μ : Type} (w : WhisperEnv μ) : μ := w.load_model "large"

/-- The exceptions `transcribe_mp3` can raise. -/
inductive TransError where
  | fileNotFound (msg : String)
  | exception (msg : String)
deriving DecidableEq, Repr

/-- `transcribe_mp3(mp3_path, model="large")` from
`src/src/transcriber.py`.  The `model` parameter is declared (its Python
default is `"large"`) but the body uses only the module-scope
`whisper_model`; a missing file raises `FileNotFoundError` and a
transcription fault is wrapped in a generic `Exception`. -/
def transcribe_mp3 {μ : Type} (w : WhisperEnv μ) (mp3_path : String)
    (model : String) : Except TransError String :=
  if !(w.fileExists mp3_path) then
    .error (.fileNotFound ("MP3 file not found: " ++ mp3_path))
  else
    match w.transcribe (whisper_model w) mp3_path with
    | .ok text => .ok text
    | .error e => .error (.exception ("Failed to transcribe audio: " ++ e))

end Transcriber

/-! ## Lemmas about Audio Discovery -/

theorem passesTimeFilter_some_iff (t : Int) (e : Entry) :
    passesTimeFilter (some t) e = true ↔ ∃ c : Int, e.ctime = some c ∧ t < c := by
  cases h : e.ctime <;> simp [passesTimeFilter, h]

theorem find_readable_eq (p : String) (items : List Entry) (ts : Option Int) :
    find_audio_files ⟨p, .readable items⟩ ts =
      (if (items.filter fun item => qualifies item && passesTimeFilter ts item).all
          (fun e => e.ctime.isSome) then
        Except.ok (List.insertionSort newerFirst
          (items.filter fun item => qualifies item && passesTimeFilter ts item))
      else Except.error FindError.osError) := rfl

theorem find_ok_mem {p : String} {items : List Entry} {ts : Option Int} {res : List Entry}
    (h : find_audio_files ⟨p, .readable items⟩ ts = .ok res) (e : Entry) :
    e ∈ res ↔ e ∈ items ∧ qualifies e = true ∧ passesTimeFilter ts e = true := by
  rw [find_readable_eq] at h
  split at h
  · injection h with h2
    subst h2
    rw [(List.perm_insertionSort newerFirst _).mem_iff, List.mem_filter, Bool.and_eq_true]
  · exact Except.noConfusion h

theorem find_ok_ctime_isSome {p : String} {items : List Entry} {ts : Option Int}
    {res : List Entry} (h : find_audio_files ⟨p, .readable items⟩ ts = .ok res)
    {e : Entry} (he : e ∈ res) : e.ctime.isSome = true := by
  rw [find_readable_eq] at h
  split at h
  next hall =>
    injection h with h2
    subst h2
    exact List.all_eq_true.mp hall e
      ((List.perm_insertionSort newerFirst _).subset he)
  next => exact Except.noConfusion h

theorem find_ok_sorted {p : String} {items : List Entry} {ts : Option Int}
    {res : List Entry} (h : find_audio_files ⟨p, .readable items⟩ ts = .ok res) :
    res.Pairwise newerFirst := by
  rw [find_readable_eq] at h
  split at h
  · injection h with h2
    subst h2
    exact List.sorted_insertionSort newerFirst _
  · exact Except.noConfusion h

theorem find_ok_perm {p : String} {items : List Entry} {ts : Option Int}
    {res : List Entry} (h : find_audio_files ⟨p, .readable items⟩ ts = .ok res) :
    res.Perm (items.filter fun item => qualifies item && passesTimeFilter ts item) := by
  rw [find_readable_eq] at h
  split at h
  · injection h with h2
    subst h2
    exact List.perm_insertionSort newerFirst _
  · exact Except.noConfusion h

theorem find_some_isOk (p : String) (items : List Entry) (t : Int) :
    ∃ res : List Entry, find_audio_files ⟨p, .readable items⟩ (some t) = .ok res := by
  rw [find_readable_eq]
  have hall : (items.filter fun item =>
      qualifies item && passesTimeFilter (some t) item).all (fun e => e.ctime.isSome) = true := by
    rw [List.all_eq_true]
    intro x hx
    rw [List.mem_filter, Bool.and_eq_true] at hx
    obtain ⟨c, hc, -⟩ := (passesTimeFilter_some_iff t x).mp hx.2.2
    simp [hc]
  rw [if_pos hall]
  exact ⟨_, rfl⟩

/-! ## Claims about Audio Discovery -/

/-- C1: with a checkpoint `t`, `find_audio_files` includes a qualifying
file exactly when its creation time (as observed through
`os.path.getctime`, which already falls back to the modification time) is
readable and strictly greater than `t` — a time equal to `t` or an
unreadable time excludes the file; with the checkpoint omitted, a
qualifying file is included regardless of its time. -/
theorem C1_checkpoint_filter (p : String) (items : List Entry) :
    (∀ (t : Int) (res : List Entry),
      find_audio_files ⟨p, .readable items⟩ (some t) = .ok res →
      ∀ e : Entry, e ∈ res ↔ e ∈ items ∧ qualifies e = true ∧
        ∃ c : Int, e.ctime = some c ∧ t < c) ∧
    (∀ res : List Entry,
      find_audio_files ⟨p, .readable items⟩ none = .ok res →
      ∀ e : Entry, e ∈ res ↔ e ∈ items ∧ qualifies e = true) := by
  constructor
  · intro t res h e
    rw [find_ok_mem h e]
    simp [passesTimeFilter_some_iff]
  · intro res h e
    rw [find_ok_mem h e]
    simp [passesTimeFilter]

/-- Witness for C1 at a concrete directory: with checkpoint 3, the file
`a.m4a` created at time 5 is discovered. -/
theorem C1_checkpoint_filter_witness :
    (⟨"a.m4a", true, some 5⟩ : Entry) ∈ ([⟨"a.m4a", true, some 5⟩] : List Entry) ∧
      qualifies ⟨"a.m4a", true, some 5⟩ = true ∧
      ∃ c : Int, (some (5:Int) : Option Int) = some c ∧ (3:Int) < c := by
  have h := (C1_checkpoint_filter "d" [⟨"a.m4a", true, some 5⟩]).1 3
    [⟨"a.m4a", true, some 5⟩] rfl ⟨"a.m4a", true, some 5⟩
  exact h.mp (List.mem_singleton.mpr rfl)

/-- C3: `find_audio_files` keeps exactly the regular entries of the
directory listing (enumeration is a single non-recursive `iterdir`; a
subdirectory is an entry with `isFile = false` and is dropped) whose
lowercased extension is `.m4a` or `.qta`; under any timestamp argument
nothing outside that set ever appears in a result. -/
theorem C3_extension_whitelist (p : String) (items : List Entry) :
    (∀ res : List Entry,
      find_audio_files ⟨p, .readable items⟩ none = .ok res →
      ∀ e : Entry, e ∈ res ↔
        e ∈ items ∧ e.isFile = true ∧ lowerString (pySuffix e.name) ∈ audio_extensions) ∧
    (∀ (ts : Option Int) (res : List Entry),
      find_audio_files ⟨p, .readable items⟩ ts = .ok res →
      ∀ e : Entry, e ∈ res →
        e.isFile = true ∧ lowerString (pySuffix e.name) ∈ audio_extensions) := by
  have hq : ∀ e : Entry, qualifies e = true ↔
      e.isFile = true ∧ lowerString (pySuffix e.name) ∈ audio_extensions := by
    intro e
    simp [qualifies, List.elem_iff]
  constructor
  · intro res h e
    rw [find_ok_mem h e]
    simp [passesTimeFilter, hq e, and_assoc]
  · intro ts res h e he
    have := (find_ok_mem h e).mp he
    exact (hq e).mp this.2.1

/-- Witness for C3 at a concrete directory: an uppercase `.QTA` file is
discovered, and it is a regular whitelisted file. -/
theorem C3_extension_whitelist_witness :
    (⟨"b.QTA", true, some 1⟩ : Entry) ∈ ([⟨"b.QTA", true, some 1⟩] : List Entry) ∧
      (⟨"b.QTA", true, some 1⟩ : Entry).isFile = true ∧
      lowerString (pySuffix (⟨"b.QTA", true, some 1⟩ : Entry).name) ∈ audio_extensions := by
  have h := (C3_extension_whitelist "d" [⟨"b.QTA", true, some 1⟩]).1
    [⟨"b.QTA", true, some 1⟩] rfl ⟨"b.QTA", true, some 1⟩
  exact h.mp (List.mem_singleton.mpr rfl)

theorem qualifies_mk (n : String) (f : Bool) (c : Option Int) :
    qualifies ⟨n, f, c⟩ = (f && audio_extensions.contains (lowerString (pySuffix n))) := rfl

/-- C4: on any successful discovery whose qualifying files have pairwise
distinct creation times, the result is sorted strictly descending by
creation time; and in the spec scenario (`old.m4a` at `t0`, `new.m4a` at
`t0+100`, `new.qta` at `t0+150`, checkpoint `t0+50`) discovery returns
exactly `[new.qta, new.m4a]` in that order. -/
theorem C4_newest_first (p : String) (items : List Entry) :
    (∀ (ts : Option Int) (res : List Entry),
      find_audio_files ⟨p, .readable items⟩ ts = .ok res →
      (items.filter qualifies).Pairwise (fun a b => a.ctime ≠ b.ctime) →
      res.Pairwise (fun a b => ctimeKey b < ctimeKey a)) ∧
    (∀ t0 : Int, find_audio_files
        ⟨"d", .readable [⟨"old.m4a", true, some t0⟩, ⟨"new.m4a", true, some (t0+100)⟩,
          ⟨"new.qta", true, some (t0+150)⟩]⟩ (some (t0+50)) =
      .ok [⟨"new.qta", true, some (t0+150)⟩, ⟨"new.m4a", true, some (t0+100)⟩]) := by
  constructor
  · intro ts res h hdist
    have hsorted : res.Pairwise newerFirst := find_ok_sorted h
    have hfilter : (items.filter fun item => qualifies item && passesTimeFilter ts item) =
        (items.filter qualifies).filter (passesTimeFilter ts) := by
      rw [List.filter_filter]
      exact List.filter_congr fun a _ => by rw [Bool.and_comm]
    have hsub : (items.filter fun item => qualifies item && passesTimeFilter ts item).Sublist
        (items.filter qualifies) := by
      rw [hfilter]; exact List.filter_sublist _
    have hdres : res.Pairwise (fun a b => a.ctime ≠ b.ctime) := by
      refine ((find_ok_perm h).pairwise_iff ?_).mpr (hdist.sublist hsub)
      intro a b hab
      exact fun hba => hab hba.symm
    refine (hsorted.and hdres).imp_of_mem ?_
    intro a b ha hb hab
    obtain ⟨hle, hne⟩ := hab
    obtain ⟨ca, hca⟩ := Option.isSome_iff_exists.mp (find_ok_ctime_isSome h ha)
    obtain ⟨cb, hcb⟩ := Option.isSome_iff_exists.mp (find_ok_ctime_isSome h hb)
    have hkey : ctimeKey a ≠ ctimeKey b := by
      simp only [ctimeKey, hca, hcb, Option.getD_some]
      intro hcc
      exact hne (by rw [hca, hcb, hcc])
    exact lt_of_le_of_ne hle fun hcc => hkey (hcc.symm)
  · intro t0
    have q1 : qualifies ⟨"old.m4a", true, some t0⟩ = true := by
      rw [qualifies_mk]; decide
    have q2 : qualifies ⟨"new.m4a", true, some (t0+100)⟩ = true := by
      rw [qualifies_mk]; decide
    have q3 : qualifies ⟨"new.qta", true, some (t0+150)⟩ = true := by
      rw [qualifies_mk]; decide
    have e1 : passesTimeFilter (some (t0+50)) ⟨"old.m4a", true, some t0⟩ = false := by
      simp only [passesTimeFilter, decide_eq_false_iff_not]
      omega
    have e2 : passesTimeFilter (some (t0+50)) ⟨"new.m4a", true, some (t0+100)⟩ = true := by
      simp only [passesTimeFilter, decide_eq_true_eq]
      omega
    have e3 : passesTimeFilter (some (t0+50)) ⟨"new.qta", true, some (t0+150)⟩ = true := by
      simp only [passesTimeFilter, decide_eq_true_eq]
      omega
    have hins : ¬ newerFirst ⟨"new.m4a", true, some (t0+100)⟩ ⟨"new.qta", true, some (t0+150)⟩ := by
      simp only [newerFirst, ctimeKey, Option.getD_some, not_le]
      omega
    rw [find_readable_eq]
    simp [List.filter_cons, q1, q2, q3, e1, e2, e3, List.insertionSort, List.orderedInsert, hins]

/-- Witness for C4 at a concrete directory with two distinct creation
times: the result is strictly descending. -/
theorem C4_newest_first_witness :
    ([⟨"b.m4a", true, some 7⟩, ⟨"a.m4a", true, some 2⟩] : List Entry).Pairwise
      (fun a b => ctimeKey b < ctimeKey a) :=
  (C4_newest_first "d" [⟨"a.m4a", true, some 2⟩, ⟨"b.m4a", true, some 7⟩]).1 none
    [⟨"b.m4a", true, some 7⟩, ⟨"a.m4a", true, some 2⟩] rfl (by decide)

/-- C5 counterexample: with the timestamp omitted, a qualifying file
whose creation time cannot be read is not skipped — it is collected and
the final sort's key call raises `OSError`, failing the whole call.  The
claim asserts the call never fails for such a file in both modes. -/
theorem C5_counterexample :
    find_audio_files ⟨"d", .readable [⟨"a.m4a", true, none⟩]⟩ none =
      .error .osError := rfl

/-- C5 (amended): when a checkpoint timestamp is provided, a qualifying
file whose time cannot be read is silently skipped — the call succeeds
and the file is absent from the result; when the timestamp is omitted,
the presence of a qualifying file with unreadable time makes the whole
call fail with the `OSError` raised from the final sort. -/
theorem C5_unreadable_time (p : String) (items : List Entry) :
    (∀ t : Int, ∃ res : List Entry,
      find_audio_files ⟨p, .readable items⟩ (some t) = .ok res ∧
      ∀ e ∈ items, e.ctime = none → e ∉ res) ∧
    ((∃ e ∈ items, qualifies e = true ∧ e.ctime = none) →
      find_audio_files ⟨p, .readable items⟩ none = .error .osError) := by
  constructor
  · intro t
    obtain ⟨res, hres⟩ := find_some_isOk p items t
    refine ⟨res, hres, ?_⟩
    intro e _ hc hmem
    have := find_ok_ctime_isSome hres hmem
    rw [hc] at this
    exact Bool.noConfusion this
  · rintro ⟨e, he, hq, hc⟩
    have hnot : ¬ ((items.filter fun item =>
        qualifies item && passesTimeFilter none item).all (fun x => x.ctime.isSome) = true) := by
      intro hall
      have hmem : e ∈ items.filter (fun item => qualifies item && passesTimeFilter none item) := by
        rw [List.mem_filter]
        exact ⟨he, by simp [hq, passesTimeFilter]⟩
      have := List.all_eq_true.mp hall e hmem
      rw [hc] at this
      exact Bool.noConfusion this
    rw [find_readable_eq, if_neg hnot]

/-- Witness for C5 (amended) at a concrete directory: with checkpoint 1,
the call succeeds and the unreadable-time file is skipped. -/
theorem C5_unreadable_time_witness :
    ∃ res : List Entry,
      find_audio_files ⟨"w", .readable [⟨"a.m4a", true, none⟩, ⟨"b.m4a", true, some 9⟩]⟩
        (some 1) = .ok res ∧
      ∀ e ∈ ([⟨"a.m4a", true, none⟩, ⟨"b.m4a", true, some 9⟩] : List Entry),
        e.ctime = none → e ∉ res :=
  (C5_unreadable_time "w" [⟨"a.m4a", true, none⟩, ⟨"b.m4a", true, some 9⟩]).1 1

/-- A character-list infix survives appending a string on the right. -/
theorem infix_data_append_left {l : List Char} (T s : String) (h : l <:+: T.data) :
    l <:+: (T ++ s).data := by
  rw [String.data_append]
  exact h.trans ⟨[], s.data, by simp⟩

/-- A character-list infix survives appending a string on the left. -/
theorem infix_data_append_right {l : List Char} (s T : String) (h : l <:+: T.data) :
    l <:+: (s ++ T).data := by
  rw [String.data_append]
  exact h.trans ⟨s.data, [], by simp⟩

/-- Both remediation texts of the permission message point at the
privacy settings pane. -/
theorem securityPane_infix_permissionMessage (p : String) :
    securityPane.data <:+: (permissionMessage p).data := by
  unfold permissionMessage
  split
  · unfold voiceMemosRemediation
    exact infix_data_append_right _ _
      (infix_data_append_left _ _
        (infix_data_append_left _ _
          (infix_data_append_right _ _ (List.infix_refl _))))
  · unfold genericRemediation
    exact infix_data_append_right _ _
      (infix_data_append_left _ _
        (infix_data_append_right _ _ (List.infix_refl _)))

/-- C6: discovery raises the not-found error exactly when the path is
absent, the not-a-directory error exactly when it is present but not a
directory, and the permission error exactly when enumeration is denied;
the permission message is the remediation message for the path, which
always names the privacy settings pane.  (The embedding of
`find_audio_files` is a pure observation of the `Directory` value, so no
branch modifies the filesystem.) -/
theorem C6_validation_errors (d : Directory) (ts : Option Int) :
    ((∃ m, find_audio_files d ts = .error (.fileNotFound m)) ↔ d.status = .missing) ∧
    ((∃ m, find_audio_files d ts = .error (.notADirectory m)) ↔ d.status = .notADir) ∧
    ((∃ m, find_audio_files d ts = .error (.permissionError m)) ↔ d.status = .denied) ∧
    (d.status = .denied →
      find_audio_files d ts = .error (.permissionError (permissionMessage d.path)) ∧
      securityPane.data <:+: (permissionMessage d.path).data) := by
  obtain ⟨p, st⟩ := d
  cases st with
  | missing => simp [find_audio_files]
  | notADir => simp [find_audio_files]
  | denied => simp [find_audio_files, securityPane_infix_permissionMessage]
  | readable items =>
    refine ⟨?_, ?_, ?_, ?_⟩
    · rw [find_readable_eq]
      split <;> simp
    · rw [find_readable_eq]
      split <;> simp
    · rw [find_readable_eq]
      split <;> simp
    · intro hc
      exact DirStatus.noConfusion hc

/-- Witness for C6 on a concrete denied directory. -/
theorem C6_validation_errors_witness :
    find_audio_files ⟨"x", .denied⟩ none =
      .error (.permissionError (permissionMessage "x")) ∧
    securityPane.data <:+: (permissionMessage "x").data :=
  (C6_validation_errors ⟨"x", .denied⟩ none).2.2.2 rfl

/-! ## Lemmas about the orchestrator loop -/

theorem processAll_fault_none_iff (conv : Entry → Except String Unit)
    (tr : Entry → Except String String) (wr : String → Except String Unit)
    (files : List Entry) :
    (processAll conv tr wr files).2 = none ↔
      ∀ f ∈ files, (stepNote conv tr wr f).isOk = true := by
  induction files with
  | nil => simp [processAll]
  | cons f fs ih =>
    cases h : stepNote conv tr wr f with
    | error e => simp [processAll, h, Except.isOk, Except.toBool]
    | ok t => simp [processAll, h, ih, Except.isOk, Except.toBool]

theorem processAll_notes_eq (conv : Entry → Except String Unit)
    (tr : Entry → Except String String) (wr : String → Except String Unit)
    (files : List Entry) :
    (processAll conv tr wr files).1 =
      (files.takeWhile fun f => (stepNote conv tr wr f).isOk).map
        fun f => ((stepNote conv tr wr f).toOption.getD "") := by
  induction files with
  | nil => simp [processAll]
  | cons f fs ih =>
    cases h : stepNote conv tr wr f with
    | error e =>
      simp [processAll, h, List.takeWhile_cons, Except.isOk, Except.toBool]
    | ok t =>
      simp [processAll, h, ih, List.takeWhile_cons, Except.isOk, Except.toBool,
        Except.toOption]

/-- C2: granted a successful discovery, the run writes the checkpoint —
set to the wall-clock time `now` at the end of the run — exactly when
every discovered candidate was processed without an exception, including
the vacuous case of zero candidates (which writes the checkpoint and
produces zero notes); when some step raises, the exception propagates,
the notes written are exactly those of the candidates before the failing
one, and the checkpoint file is left untouched. -/
theorem C2_checkpoint_written_iff (conv : Entry → Except String Unit)
    (tr : Entry → Except String String) (wr : String → Except String Unit)
    (d : Directory) (store : Option String) (now : Nat) (files : List Entry)
    (hfind : find_audio_files d ((read_timestamp store).map Int.ofNat) = .ok files) :
    ((runMain conv tr wr d store now).fault = none ↔
      ∀ f ∈ files, (stepNote conv tr wr f).isOk = true) ∧
    ((runMain conv tr wr d store now).fault = none →
      (runMain conv tr wr d store now).store = some (natToDecimal now)) ∧
    ((runMain conv tr wr d store now).fault ≠ none →
      (runMain conv tr wr d store now).store = store) ∧
    ((runMain conv tr wr d store now).notes =
      (files.takeWhile fun f => (stepNote conv tr wr f).isOk).map
        fun f => ((stepNote conv tr wr f).toOption.getD "")) ∧
    (files = [] →
      runMain conv tr wr d store now = ⟨[], some (natToDecimal now), none⟩) := by
  have hrun : runMain conv tr wr d store now =
      (match (processAll conv tr wr files).2 with
        | some msg => ⟨(processAll conv tr wr files).1, store, some (.step msg)⟩
        | none => ⟨(processAll conv tr wr files).1, write_timestamp now store, none⟩) := by
    simp only [runMain]
    rw [hfind]
  refine ⟨?_, ?_, ?_, ?_, ?_⟩
  · rw [hrun, ← processAll_fault_none_iff conv tr wr files]
    cases hp : (processAll conv tr wr files).2 <;> simp [hp]
  · rw [hrun]
    cases hp : (processAll conv tr wr files).2 <;> simp [hp, write_timestamp]
  · rw [hrun]
    cases hp : (processAll conv tr wr files).2 <;> simp [hp]
  · rw [hrun, ← processAll_notes_eq conv tr wr files]
    cases hp : (processAll conv tr wr files).2 <;> simp [hp]
  · intro hnil
    subst hnil
    rw [hrun]
    simp [processAll, write_timestamp]

/-- Witness for C2 on a concrete empty run: no notes, checkpoint
advanced to the decimal form of `now = 7`. -/
theorem C2_checkpoint_written_iff_witness :
    runMain (fun _ => .ok ()) (fun _ => .ok "text") (fun _ => .ok ())
        ⟨"d", .readable []⟩ none 7 = ⟨[], some (natToDecimal 7), none⟩ :=
  (C2_checkpoint_written_iff (fun _ => .ok ()) (fun _ => .ok "text") (fun _ => .ok ())
    ⟨"d", .readable []⟩ none 7 [] rfl).2.2.2.2 rfl

/-! ## Lemmas about the Checkpoint Store encoding -/

theorem digitVal_digitChar {d : Nat} (h : d < 10) : digitVal (digitChar d) = d := by
  interval_cases d <;> decide

theorem digitChar_isDigit {d : Nat} (h : d < 10) : (digitChar d).isDigit = true := by
  interval_cases d <;> decide

theorem digitsRevAux_eq_digits (fuel : Nat) :
    ∀ n : Nat, n ≤ fuel → digitsRevAux fuel n = Nat.digits 10 n := by
  induction fuel with
  | zero =>
    intro n h
    interval_cases n
    simp [digitsRevAux]
  | succ fuel ih =>
    intro n h
    cases n with
    | zero => simp [digitsRevAux]
    | succ m =>
      have hstep : digitsRevAux (fuel+1) (m+1) =
          ((m+1) % 10) :: digitsRevAux fuel ((m+1) / 10) := rfl
      have hdiv : (m+1) / 10 ≤ fuel := by
        have := Nat.div_lt_self (Nat.succ_pos m) (by norm_num : 1 < 10)
        omega
      rw [hstep, ih ((m+1) / 10) hdiv,
        Nat.digits_def' (by norm_num : 1 < 10) (Nat.succ_pos m)]

theorem natToDecimal_eq_digits (n : Nat) :
    natToDecimal n =
      (if n = 0 then "0" else String.mk ((Nat.digits 10 n).reverse.map digitChar)) := by
  rw [natToDecimal, digitsRevAux_eq_digits n n le_rfl]

theorem natToDecimal_digits (n : Nat) :
    (natToDecimal n).data ≠ [] ∧ (natToDecimal n).data.all Char.isDigit = true := by
  by_cases h0 : n = 0
  · subst h0
    exact ⟨by decide, by decide⟩
  · rw [natToDecimal_eq_digits, if_neg h0]
    have hne : Nat.digits 10 n ≠ [] := Nat.digits_ne_nil_iff_ne_zero.mpr h0
    constructor
    · simpa using hne
    · rw [List.all_eq_true]
      intro c hc
      rw [List.mem_map] at hc
      obtain ⟨d, hd, rfl⟩ := hc
      exact digitChar_isDigit (Nat.digits_lt_base (by norm_num) (List.mem_reverse.mp hd))

theorem decimalToNat_natToDecimal (n : Nat) : decimalToNat (natToDecimal n) = some n := by
  by_cases h0 : n = 0
  · subst h0
    decide
  · obtain ⟨hne, hall⟩ := natToDecimal_digits n
    rw [decimalToNat, if_pos ⟨hne, hall⟩]
    rw [natToDecimal_eq_digits, if_neg h0]
    have hmap : (((Nat.digits 10 n).reverse.map digitChar).map digitVal) =
        (Nat.digits 10 n).reverse := by
      rw [List.map_map]
      have hcong : ∀ a ∈ (Nat.digits 10 n).reverse, (digitVal ∘ digitChar) a = id a :=
        fun a ha =>
          digitVal_digitChar (Nat.digits_lt_base (by norm_num) (List.mem_reverse.mp ha))
      rw [List.map_congr_left hcong, List.map_id]
    show some (Nat.ofDigits 10
      ((((Nat.digits 10 n).reverse.map digitChar).map digitVal).reverse)) = some n
    rw [hmap, List.reverse_reverse, Nat.ofDigits_digits]

/-- C7: writing a timestamp `T` and then reading returns exactly `T`;
reading with no checkpoint file present returns none rather than raising;
and the stored representation is the nonempty decimal-digit string form
of the integer timestamp. -/
theorem C7_checkpoint_roundtrip :
    (∀ (T : Nat) (store : Option String),
      read_timestamp (write_timestamp T store) = some T) ∧
    read_timestamp none = none ∧
    (∀ (T : Nat) (store : Option String),
      write_timestamp T store = some (natToDecimal T) ∧
      (natToDecimal T).data ≠ [] ∧ (natToDecimal T).data.all Char.isDigit = true) := by
  refine ⟨?_, rfl, ?_⟩
  · intro T store
    simp [read_timestamp, write_timestamp, decimalToNat_natToDecimal]
  · intro T store
    exact ⟨rfl, natToDecimal_digits T⟩

/-! ## Claims about the Conversion Collaborator -/

/-- C8: `convert_to_mp3` raises the not-found error exactly when the
input is missing; a `ValueError` (wrapping the `mkdir` `OSError`)
exactly when the input exists, the output parent is absent and `mkdir`
fails; a generic exception exactly when the fault is the load or the
export; and on success the MP3 has been written at the given output
path. -/
theorem C8_convert_errors (fs : AudioConverter.ConvFS) (input output : String) :
    ((∃ m, (AudioConverter.convert_to_mp3 fs input output).2 =
        some (.fileNotFound m)) ↔ fs.inputExists = false) ∧
    ((∃ m, (AudioConverter.convert_to_mp3 fs input output).2 =
        some (.valueError m)) ↔
      fs.inputExists = true ∧ fs.parentExists = false ∧ fs.mkdirError.isSome = true) ∧
    ((∃ m, (AudioConverter.convert_to_mp3 fs input output).2 =
        some (.exception m)) ↔
      fs.inputExists = true ∧ (fs.parentExists = true ∨ fs.mkdirError = none) ∧
        (fs.loadError.isSome = true ∨ fs.exportError.isSome = true)) ∧
    ((AudioConverter.convert_to_mp3 fs input output).2 = none →
      AudioConverter.ConvAction.exportMp3 output ∈
        (AudioConverter.convert_to_mp3 fs input output).1) := by
  obtain ⟨hin, hpe, hmk, hld, hex⟩ := fs
  cases hin <;> cases hpe <;> cases hmk <;> cases hld <;> cases hex <;>
    simp [AudioConverter.convert_to_mp3]

/-- Witness for C8 on a concrete fully healthy filesystem: the
conversion succeeds and the MP3 write to the output path is among its
effects. -/
theorem C8_convert_errors_witness :
    AudioConverter.ConvAction.exportMp3 "out/x.mp3" ∈
      (AudioConverter.convert_to_mp3 ⟨true, true, none, none, none⟩
        "in/a.m4a" "out/x.mp3").1 :=
  (C8_convert_errors ⟨true, true, none, none, none⟩ "in/a.m4a" "out/x.mp3").2.2.2 rfl

/-- C10: with an existing input and a missing output parent directory,
`convert_to_mp3` first creates the parent — `mkdir(parents=True,
exist_ok=True)`, which also creates every missing intermediate — before
the load and export, and the conversion proceeds rather than failing; a
pre-existing parent is left as is (no directory creation at all). -/
theorem C10_parent_created (fs : AudioConverter.ConvFS) (input output : String)
    (hin : fs.inputExists = true) :
    (fs.parentExists = false → fs.mkdirError = none →
      (AudioConverter.convert_to_mp3 fs input output).1.head? =
        some (AudioConverter.ConvAction.mkdirParentsExistOk
          (AudioConverter.pyParent output))) ∧
    (fs.parentExists = false → fs.mkdirError = none → fs.loadError = none →
      fs.exportError = none →
      AudioConverter.convert_to_mp3 fs input output =
        ([AudioConverter.ConvAction.mkdirParentsExistOk (AudioConverter.pyParent output),
          AudioConverter.ConvAction.loadAudio input,
          AudioConverter.ConvAction.exportMp3 output], none)) ∧
    (fs.parentExists = true →
      ∀ dir, AudioConverter.ConvAction.mkdirParentsExistOk dir ∉
        (AudioConverter.convert_to_mp3 fs input output).1) := by
  obtain ⟨hi, hpe, hmk, hld, hex⟩ := fs
  cases hi with
  | false => exact Bool.noConfusion hin
  | true =>
    cases hpe <;> cases hmk <;> cases hld <;> cases hex <;>
      simp [AudioConverter.convert_to_mp3]

/-- Witness for C10 on a concrete filesystem with a missing output
parent: the first effect is the recursive directory creation. -/
theorem C10_parent_created_witness :
    (AudioConverter.convert_to_mp3 ⟨true, false, none, none, none⟩
        "rec.m4a" "notes/inbox/out.mp3").1.head? =
      some (AudioConverter.ConvAction.mkdirParentsExistOk
        (AudioConverter.pyParent "notes/inbox/out.mp3")) :=
  (C10_parent_created ⟨true, false, none, none, none⟩ "rec.m4a" "notes/inbox/out.mp3"
    rfl).1 rfl rfl

/-! ## Claim about the Transcription Collaborator -/

/-- C9: the `transcribe_mp3` of `src/src/transcriber.py` (the one the
orchestrator imports) ignores its `model` parameter entirely: any two
choices of the argument run the identical computation, which uses the
single module-scope model loaded once with `"large"`. -/
theorem C9_model_param_ignored {μ : Type} (w : Transcriber.WhisperEnv μ)
    (mp3_path : String) (m1 m2 : String) :
    Transcriber.transcribe_mp3 w mp3_path m1 = Transcriber.transcribe_mp3 w mp3_path m2 ∧
    Transcriber.transcribe_mp3 w mp3_path m1 =
      (if !(w.fileExists mp3_path) then
        .error (.fileNotFound ("MP3 file not found: " ++ mp3_path))
      else
        match w.transcribe (w.load_model "large") mp3_path with
        | .ok text => .ok text
        | .error e => .error (.exception ("Failed to transcribe audio: " ++ e))) :=
  ⟨rfl, rfl⟩

end ObsidianAudioNote
